import Mathlib

/-!
Shallow embedding of `scrape.py`: an asynchronous scraper that fetches a
listing page, selects a "100MB"-prefixed zip link, and streams it to disk
while rendering progress bars, with concurrency bounded by a semaphore.

The embedding models, from the source:
  * the `ProgressBarManager` slot pool (`_alloc_slot`, `_free_slot`,
    `install_sub_bar`);
  * `download_file` (filename resolution via `cgi.parse_header`,
    Content-Length parsing, the chunk loop with progress updates, and the
    exception handling at the function boundary);
  * `scrape` (fetch with `raise_for_status`, link filtering and selection,
    URL concatenation);
  * the `bound_concurrency` semaphore wrapper, as an event-trace system.

Python list / string / header-parsing semantics used by the code are
embedded explicitly (`pyListSet`, `pyStrip`, `parse_header`, `basename`).
-/

/-! ## Slot pool (`ProgressBarManager._lines`)

The manager keeps `self._lines = [None] * lines`; an occupied slot holds a
reference to the installed progress bar (modelled as `some ()`). -/

/-- A pool of terminal line slots: `none` is free, `some ()` holds a bar. -/
abbrev Pool := List (Option Unit)

/-- Embeds `ProgressBarManager._alloc_slot`:
`return self._lines.index(None) if None in self._lines else None` —
the index of the first free slot, or `none` when all are occupied. -/
def allocSlot : Pool → Option Nat
  | [] => none
  | none :: _ => some 0
  | some _ :: rest => (allocSlot rest).map (· + 1)

/-- Python list item assignment `l[i] = v`: a negative index `i` with
`-len(l) <= i` counts from the end; an index outside `[-len(l), len(l))`
raises `IndexError`. -/
def pyListSet (l : Pool) (i : Int) (v : Option Unit) : Except String Pool :=
  if 0 ≤ i ∧ i < (l.length : Int) then .ok (l.set i.toNat v)
  else if -(l.length : Int) ≤ i ∧ i < 0 then .ok (l.set (i + l.length).toNat v)
  else .error "IndexError: list assignment index out of range"

/-- Embeds `ProgressBarManager._free_slot`: `self._lines[slot] = None`.
No already-free check exists in the source; only Python's own index check
applies. -/
def freeSlot (l : Pool) (slot : Int) : Except String Pool :=
  pyListSet l slot none

/-- Outcome of the `with install_sub_bar(...)` body: it either completes or
raises (e.g. a mid-stream network failure inside the chunk loop). -/
inductive BodyOutcome
  | ok
  | raises
deriving DecidableEq

/-- Result of one `install_sub_bar` lifecycle: the pool afterwards, the slot
that was claimed (if any), and whether `progress_bar.finish()` ran. -/
structure SubBarRun where
  pool : Pool
  slot : Option Nat
  finished : Bool
deriving DecidableEq

/-- Embeds `ProgressBarManager.install_sub_bar`, a `@contextmanager`:
allocate a slot (occupying it when available), run the body at `yield`,
and afterwards run `finish()` and `_free_slot`.  The generator has no
`try`/`finally` around the `yield`, so when the body raises, the
exception is thrown into the generator at the yield point and the
post-yield code (finish and free) never runs. -/
def installSubBar (pool : Pool) (body : BodyOutcome) : SubBarRun :=
  let slot := allocSlot pool
  let pool1 := match slot with
    | some s => pool.set s (some ())
    | none => pool
  match body with
  | .ok =>
    let pool2 := match slot with
      | some s => pool1.set s none
      | none => pool1
    ⟨pool2, slot, true⟩
  | .raises => ⟨pool1, slot, false⟩

/-! ## Helper lemmas about the pool -/

theorem allocSlot_spec (pool : Pool) (i : Nat) (h : allocSlot pool = some i) :
    pool.get? i = some none ∧ ∀ j, j < i → pool.get? j ≠ some none := by
  induction pool generalizing i with
  | nil => simp [allocSlot] at h
  | cons x rest ih =>
    cases x with
    | none =>
      simp [allocSlot] at h
      subst h
      exact ⟨rfl, by intro j hj; omega⟩
    | some u =>
      simp [allocSlot, Option.map_eq_some'] at h
      obtain ⟨k, hk, rfl⟩ := h
      obtain ⟨h1, h2⟩ := ih k hk
      refine ⟨h1, ?_⟩
      intro j hj
      cases j with
      | zero => simp
      | succ j2 => exact h2 j2 (by omega)

theorem allocSlot_none_iff (pool : Pool) :
    allocSlot pool = none ↔ ∀ x ∈ pool, x ≠ none := by
  induction pool with
  | nil => simp [allocSlot]
  | cons x rest ih =>
    cases x with
    | none => simp [allocSlot]
    | some u => simp [allocSlot, ih]

theorem set_get_none (l : Pool) (n : Nat) (h : l.get? n = some none) :
    l.set n none = l := by
  induction l generalizing n with
  | nil => rfl
  | cons x rest ih =>
    cases n with
    | zero => simp_all
    | succ m =>
      simp only [List.get?] at h
      simp [List.set, ih m h]

/-! ## Python string primitives used by `download_file`

`cgi.parse_header` (CPython's `cgi` module) and `os.path.basename`
(`posixpath.basename`) are standard-library code called by the source;
they are embedded here from their CPython definitions, operating on
`List Char`. -/

/-- Index of the first occurrence of a character, if any
(Python `str.find` restricted to a single-character needle). -/
def charIndexOf : List Char → Char → Option Nat
  | [], _ => none
  | x :: xs, c => if x = c then some 0 else (charIndexOf xs c).map (· + 1)

/-- Python `s.find(c, start)`: first index of `c` at or after `start`,
or `-1` when there is none. -/
def pyFindFrom (s : List Char) (c : Char) (start : Nat) : Int :=
  match charIndexOf (s.drop start) c with
  | some k => ((start + k : Nat) : Int)
  | none => -1

/-- ASCII whitespace, as stripped by Python `str.strip()`. -/
def isPySpace (c : Char) : Bool :=
  c = ' ' || c = '\t' || c = '\n' || c = '\r' || c = '\x0b' || c = '\x0c'

/-- Python `str.strip()`: drop whitespace at both ends. -/
def pyStrip (s : List Char) : List Char :=
  ((s.dropWhile isPySpace).reverse.dropWhile isPySpace).reverse

/-- Python `str.lower()` (ASCII range suffices for header names). -/
def pyLower (s : List Char) : List Char := s.map Char.toLower

/-- Python `s.count('"', 0, end)` over the whole list. -/
def countQuote (s : List Char) : Nat := s.countP (fun c => c == '"')

/-- Python `s.count('\\"', 0, end)` over the whole list: non-overlapping
occurrences of a backslash followed by a double quote. -/
def countBSQuote : List Char → Nat
  | '\\' :: '"' :: rest => countBSQuote rest + 1
  | _ :: rest => countBSQuote rest
  | [] => 0

/-- The inner loop of `cgi._parseparam`: while `end` splits the string at a
semicolon inside an unbalanced quote region, move `end` to the next
semicolon (`-1` when none remains).  Fuel bounds the iteration count. -/
def advanceEnd (s : List Char) : Nat → Int → Int
  | 0, e => e
  | fuel + 1, e =>
    if 0 < e ∧ ((countQuote (s.take e.toNat) : Int) - countBSQuote (s.take e.toNat)) % 2 ≠ 0
    then advanceEnd s fuel (pyFindFrom s ';' (e.toNat + 1))
    else e

/-- Embeds `cgi._parseparam(s)`: while the string starts with a semicolon,
drop it, find the end of the next parameter (skipping semicolons inside
quotes), and yield the stripped piece. -/
def parseparamAux : Nat → List Char → List (List Char)
  | 0, _ => []
  | fuel + 1, s =>
    match s with
    | ';' :: s1 =>
      let e := advanceEnd s1 (s1.length + 1) (pyFindFrom s1 ';' 0)
      let e2 : Nat := if e < 0 then s1.length else e.toNat
      pyStrip (s1.take e2) :: parseparamAux fuel (s1.drop e2)
    | _ => []

/-- First pass of the quoted-value unescaping in `cgi.parse_header`:
`value.replace('\\\\', '\\')`. -/
def replaceBSBS : List Char → List Char
  | '\\' :: '\\' :: rest => '\\' :: replaceBSBS rest
  | c :: rest => c :: replaceBSBS rest
  | [] => []

/-- Second pass of the quoted-value unescaping in `cgi.parse_header`:
`value.replace('\\"', '"')`. -/
def replaceBSQ : List Char → List Char
  | '\\' :: '"' :: rest => '"' :: replaceBSQ rest
  | c :: rest => c :: replaceBSQ rest
  | [] => []

/-- Python dict assignment `pdict[name] = value` on an association list:
replace the binding when the key exists, else append it. -/
def assocSet : List (List Char × List Char) → List Char → List Char →
    List (List Char × List Char)
  | [], k, v => [(k, v)]
  | (k0, v0) :: rest, k, v =>
    if k0 = k then (k, v) :: rest else (k0, v0) :: assocSet rest k v

/-- Python `pdict.get(key)` on the association list built by `assocSet`. -/
def lookupParam : List (List Char × List Char) → List Char → Option (List Char)
  | [], _ => none
  | (k0, v0) :: rest, key => if k0 = key then some v0 else lookupParam rest key

/-- One parameter of `cgi.parse_header`: split at the first `=`, lowercase
and strip the name, strip the value, and unquote/unescape a
double-quoted value.  Pieces without `=` are skipped. -/
def paramPair (p : List Char) : Option (List Char × List Char) :=
  match charIndexOf p '=' with
  | some i =>
    let name := pyLower (pyStrip (p.take i))
    let value0 := pyStrip (p.drop (i + 1))
    let value :=
      if 2 ≤ value0.length ∧ value0.head? = some '"' ∧ value0.getLast? = some '"'
      then replaceBSQ (replaceBSBS ((value0.drop 1).dropLast))
      else value0
    some (name, value)
  | none => none

/-- Embeds `cgi.parse_header(line)`: the main content-type-like value and
the dictionary of `key=value` parameters. -/
def parse_header (line : List Char) : List Char × List (List Char × List Char) :=
  match parseparamAux (line.length + 2) (';' :: line) with
  | [] => ([], [])
  | key :: parts =>
    (key, parts.foldl (fun acc p =>
      match paramPair p with
      | some (n, v) => assocSet acc n v
      | none => acc) [])

/-- Embeds `posixpath.basename(p)` (used as `os.path.basename(url)`):
`p[p.rfind('/') + 1:]`. -/
def basenameL (s : List Char) : List Char :=
  match charIndexOf s.reverse '/' with
  | some k => s.drop (s.length - k)
  | none => s

/-- String-level wrapper of `basenameL`. -/
def basename (s : String) : String := String.mk (basenameL s.toList)

/-- The parameter name looked up by `params.get('filename')`. -/
def filenameKey : List Char := "filename".toList

/-- Embeds the filename-resolution block of `download_file` (lines
117–128): when the `Content-Disposition` header is present and non-empty
(Python truthiness), the name is `cgi.parse_header(...)` followed by
`params.get('filename')` — possibly `None`; otherwise it is
`os.path.basename(url)`. -/
def resolveFilename (url : String) (contentDispo : Option String) : Option String :=
  match contentDispo with
  | some cd =>
    if cd ≠ "" then (lookupParam (parse_header cd.toList).2 filenameKey).map String.mk
    else some (basename url)
  | none => some (basename url)

/-! ## `download_file` -/

/-- Decimal value of a non-empty digit string, `none` otherwise. -/
def digitsValAux : Nat → List Char → Option Nat
  | acc, [] => some acc
  | acc, c :: cs =>
    if c.isDigit then digitsValAux (acc * 10 + (c.toNat - 48)) cs else none

/-- Decimal value of a non-empty digit string, `none` otherwise. -/
def digitsVal : List Char → Option Nat
  | [] => none
  | ds => digitsValAux 0 ds

/-- Python `int(s)` on a decimal literal (surrounding whitespace and an
optional sign allowed): `none` models the `ValueError` raised on a
non-numeric string. -/
def pyIntParse (s : String) : Option Int :=
  match pyStrip s.toList with
  | '-' :: ds => (digitsVal ds).map (fun n => -(n : Int))
  | '+' :: ds => (digitsVal ds).map (fun n => (n : Int))
  | ds => (digitsVal ds).map (fun n => (n : Int))

/-- Embeds lines 130–131 of `download_file`:
`file_size = int(content_length) if content_length else None`.
An absent or empty (falsy) header gives `none`; a present non-numeric
value raises `ValueError` (the `Except.error` case, uncaught in the
source). -/
def parseContentLength : Option String → Except Unit (Option Int)
  | none => .ok none
  | some cl =>
    if cl = "" then .ok none
    else
      match pyIntParse cl with
      | some n => .ok (some n)
      | none => .error ()

/-- An exception raised while iterating/writing the body chunks:
`aiohttp` client errors (network) or `OSError` (storage). -/
inductive StreamErr
  | net
  | os
deriving DecidableEq

/-- Environment of one `download_file` call: how the HTTP response and the
file system behave.  `chunks` are the body chunks fully processed before
`streamErr` (if any) is raised at the next iteration boundary. -/
structure DlEnv where
  getFails : Bool
  contentDispo : Option String
  contentLength : Option String
  openFails : Bool
  chunks : List (List Nat)
  streamErr : Option StreamErr
deriving DecidableEq

/-- How `download_file` ends.  `logged…` outcomes are exceptions caught by
its `except` clauses; `crashed…` outcomes are exceptions no clause
catches (`ValueError` from `int`, `TypeError` from
`pathlib.Path(output_folder, None)`). -/
inductive DlOutcome
  | completed
  | loggedNetworkFailure
  | loggedStorageFailure
  | crashedTypeError
  | crashedValueError
deriving DecidableEq

/-- Observables of one `download_file` call: the outcome, the chunks
written to the output file, the arguments of the `chunks_bar.update`
calls, the `maxval` handed to the `progressbar.ProgressBar` constructor
(`none` when the bar is never constructed), and the slot pool
afterwards. -/
structure DlResult where
  outcome : DlOutcome
  written : List (List Nat)
  updates : List Nat
  barMaxval : Option (Option Int)
  pool : Pool
deriving DecidableEq

/-- Python truthiness of `file_size` in `if file_size:`: `None` and `0`
are falsy. -/
def pyTruthyInt : Option Int → Bool
  | some n => n != 0
  | none => false

/-- Arguments of the successive `chunks_bar.update(chunks_bar.currval +
len(chunk))` calls, given the current value and the chunk lengths. -/
def updateArgs (cur : Nat) : List Nat → List Nat
  | [] => []
  | l :: ls => (cur + l) :: updateArgs (cur + l) ls

/-- Embeds lines 133–146 of `download_file`: open the file, build the bar
with `maxval=file_size`, run the chunk loop inside
`install_sub_bar` (updating only when `file_size` is truthy), and let a
stream exception propagate through the context manager. -/
def downloadBody (fileSize : Option Int) (chunks : List (List Nat))
    (streamErr : Option StreamErr) (pool : Pool) : DlResult :=
  let run := installSubBar pool
    (match streamErr with | none => .ok | some _ => .raises)
  let updates :=
    if pyTruthyInt fileSize then updateArgs 0 (chunks.map (·.length)) else []
  let outcome := match streamErr with
    | none => DlOutcome.completed
    | some .net => DlOutcome.loggedNetworkFailure
    | some .os => DlOutcome.loggedStorageFailure
  ⟨outcome, chunks, updates, some fileSize, run.pool⟩

/-- Embeds `download_file(url, output_folder)` (lines 110–150): a failing
`session.get` is caught as a network failure; `int(content_length)`
may raise `ValueError` (uncaught); a `None` filename makes
`pathlib.Path` raise `TypeError` (uncaught); a failing open is caught as
a storage failure; otherwise the chunk loop runs. -/
def downloadFile (url : String) (env : DlEnv) (pool : Pool) : DlResult :=
  if env.getFails then ⟨.loggedNetworkFailure, [], [], none, pool⟩
  else
    match parseContentLength env.contentLength with
    | .error _ => ⟨.crashedValueError, [], [], none, pool⟩
    | .ok fileSize =>
      match resolveFilename url env.contentDispo with
      | none => ⟨.crashedTypeError, [], [], none, pool⟩
      | some _ =>
        if env.openFails then ⟨.loggedStorageFailure, [], [], none, pool⟩
        else downloadBody fileSize env.chunks env.streamErr pool

/-! ## `fetch` and `scrape` -/

/-- Python `s.startswith(p)` on explicit character lists. -/
def charsBegin : List Char → List Char → Bool
  | _, [] => true
  | [], _ :: _ => false
  | c :: cs, p :: ps => c = p && charsBegin cs ps

/-- Python `href.startswith(pre)`. -/
def strBegins (s pre : String) : Bool := charsBegin s.toList pre.toList

/-- Python `href.endswith(suf)`. -/
def strFinishes (s suf : String) : Bool :=
  charsBegin s.toList.reverse suf.toList.reverse

/-- Environment of one `scrape()` run: whether the page fetch raises a
client/timeout error, the final HTTP status, and the ordered `href`
values of the `<a href=…>` elements found by the external parser. -/
structure ScrapeEnv where
  fetchNetErr : Bool
  status : Nat
  hrefs : List String
deriving DecidableEq

/-- How `scrape()` ends: the fetch failure caught and logged at lines
181–183, an uncaught `IndexError` from `list(filter(...))[0]`, or a run
that starts the download task on the concatenated URL. -/
inductive ScrapeOutcome
  | loggedFetchFailure
  | crashedIndexError
  | ran (taskUrl : String)
deriving DecidableEq

/-- The hard-coded listing URL of `scrape()`. -/
def LISTING_URL : String := "http://speedtest.tele2.net/"

/-- Embeds lines 188–193 of `scrape`: keep the hrefs ending in `.zip`,
then the ones starting with `100MB`, and take element `[0]` — `none`
models the `IndexError` on an empty list. -/
def selectTarget (hrefs : List String) : Option String :=
  (((hrefs.filter (fun h => strFinishes h ".zip")).filter
      (fun h => strBegins h "100MB"))).head?

/-- Embeds `fetch` + `scrape`: a client/timeout error from the fetch —
including the `ClientResponseError` that `resp.raise_for_status()`
raises exactly when `400 <= status` — is caught and logged; otherwise
link selection runs, crashing with `IndexError` when no candidate
matches, else the download task is started on `url + target_url`. -/
def scrape (env : ScrapeEnv) : ScrapeOutcome :=
  if env.fetchNetErr then .loggedFetchFailure
  else if 400 ≤ env.status then .loggedFetchFailure
  else
    match selectTarget env.hrefs with
    | none => .crashedIndexError
    | some href => .ran (LISTING_URL ++ href)

/-- Number of Download Tasks a `scrape()` run creates. -/
def tasksStarted : ScrapeOutcome → Nat
  | .ran _ => 1
  | _ => 0

/-! ## `bound_concurrency`: the `asyncio.Semaphore` discipline

`download_file` is wrapped by `bound_concurrency(10)`: every call runs as
`async with sem: return await func(...)`.  We model the interleaved
executions of the wrapped tasks as traces of acquire/release events.  An
acquire can only be appended when the semaphore has capacity (the
wrapper suspends otherwise) and each task acquires at most once and
releases only while holding — which is exactly the discipline the
`async with` block enforces, on normal exit and on exception alike. -/

/-- The concurrency bound hard-coded by `@bound_concurrency(10)`. -/
def CONCURRENCY_BOUND : Nat := 10

/-- One semaphore interaction of a wrapped `download_file` call. -/
inductive SemEvent
  | acq (t : Nat)
  | rel (t : Nat)
deriving DecidableEq

/-- Number of acquire events in a trace. -/
def countAcq (tr : List SemEvent) : Nat :=
  tr.countP (fun e => match e with | .acq _ => true | .rel _ => false)

/-- Number of release events in a trace. -/
def countRel (tr : List SemEvent) : Nat :=
  tr.countP (fun e => match e with | .acq _ => false | .rel _ => true)

/-- Number of acquire events of task `t` in a trace. -/
def countAcqT (tr : List SemEvent) (t : Nat) : Nat :=
  tr.countP (fun e => match e with | .acq u => u == t | .rel _ => false)

/-- Number of release events of task `t` in a trace. -/
def countRelT (tr : List SemEvent) (t : Nat) : Nat :=
  tr.countP (fun e => match e with | .acq _ => false | .rel u => u == t)

/-- Traces of semaphore events that some interleaving of
`bound_concurrency`-wrapped tasks can produce against
`asyncio.Semaphore(B)`: an acquire is only possible while fewer than `B`
tickets are outstanding (the semaphore suspends the caller otherwise)
and each task acquires at most once and releases only while holding. -/
inductive SemTrace (B : Nat) : List SemEvent → Prop
  | nil : SemTrace B []
  | acq (tr : List SemEvent) (t : Nat) :
      SemTrace B tr →
      countAcq tr < countRel tr + B →
      countAcqT tr t = 0 →
      SemTrace B (tr ++ [SemEvent.acq t])
  | rel (tr : List SemEvent) (t : Nat) :
      SemTrace B tr →
      countRelT tr t < countAcqT tr t →
      SemTrace B (tr ++ [SemEvent.rel t])

/-- The semaphore events of one wrapped call, `async with sem: return
await func(...)`: acquire, run the body, release — the release happens
whether the body returns normally or raises, because `__aexit__` runs on
both paths. -/
def boundWrapper (t : Nat) (body : BodyOutcome) : List SemEvent × BodyOutcome :=
  match body with
  | .ok => ([SemEvent.acq t, SemEvent.rel t], .ok)
  | .raises => ([SemEvent.acq t, SemEvent.rel t], .raises)

theorem countAcq_append (a b : List SemEvent) :
    countAcq (a ++ b) = countAcq a + countAcq b := List.countP_append ..

theorem countRel_append (a b : List SemEvent) :
    countRel (a ++ b) = countRel a + countRel b := List.countP_append ..

theorem countAcqT_append (a b : List SemEvent) (t : Nat) :
    countAcqT (a ++ b) t = countAcqT a t + countAcqT b t := List.countP_append ..

theorem countRelT_append (a b : List SemEvent) (t : Nat) :
    countRelT (a ++ b) t = countRelT a t + countRelT b t := List.countP_append ..

theorem countAcq_singleAcq (t : Nat) : countAcq [SemEvent.acq t] = 1 := rfl

theorem countAcq_singleRel (t : Nat) : countAcq [SemEvent.rel t] = 0 := rfl

theorem countRel_singleAcq (t : Nat) : countRel [SemEvent.acq t] = 0 := rfl

theorem countRel_singleRel (t : Nat) : countRel [SemEvent.rel t] = 1 := rfl

theorem countAcqT_singleAcq (u t : Nat) :
    countAcqT [SemEvent.acq u] t = if u = t then 1 else 0 := by
  by_cases h : u = t <;>
    simp [countAcqT, List.countP_cons, List.countP_nil, h]

theorem countAcqT_singleRel (u t : Nat) : countAcqT [SemEvent.rel u] t = 0 := rfl

theorem countRelT_singleAcq (u t : Nat) : countRelT [SemEvent.acq u] t = 0 := rfl

theorem countRelT_singleRel (u t : Nat) :
    countRelT [SemEvent.rel u] t = if u = t then 1 else 0 := by
  by_cases h : u = t <;>
    simp [countRelT, List.countP_cons, List.countP_nil, h]

/-- Invariant: never more than `B` outstanding tickets. -/
theorem semTrace_bound (B : Nat) (tr : List SemEvent) (h : SemTrace B tr) :
    countAcq tr ≤ countRel tr + B := by
  induction h with
  | nil => simp [countAcq, countRel]
  | acq tr t htr hcap hone ih =>
    rw [countAcq_append, countRel_append, countAcq_singleAcq, countRel_singleAcq]
    omega
  | rel tr t htr hhold ih =>
    rw [countAcq_append, countRel_append, countAcq_singleRel, countRel_singleRel]
    omega

/-- Invariant: per task, releases never outrun acquires, and a task
acquires at most once. -/
theorem semTrace_perTask (B : Nat) (tr : List SemEvent) (h : SemTrace B tr)
    (t : Nat) : countRelT tr t ≤ countAcqT tr t ∧ countAcqT tr t ≤ 1 := by
  induction h with
  | nil => simp [countAcqT, countRelT]
  | acq tr u htr hcap hone ih =>
    rw [countAcqT_append, countRelT_append, countAcqT_singleAcq,
      countRelT_singleAcq]
    by_cases hu : u = t
    · subst hu
      rw [if_pos rfl]
      omega
    · rw [if_neg hu]
      omega
  | rel tr u htr hhold ih =>
    rw [countAcqT_append, countRelT_append, countAcqT_singleRel,
      countRelT_singleRel]
    by_cases hu : u = t
    · subst hu
      rw [if_pos rfl]
      omega
    · rw [if_neg hu]
      omega

/-- Validity of semaphore traces is closed under taking prefixes. -/
theorem semTrace_take (B : Nat) (tr : List SemEvent) (h : SemTrace B tr) :
    ∀ n, SemTrace B (tr.take n) := by
  induction h with
  | nil => intro n; simpa using SemTrace.nil
  | acq tr t htr hcap hone ih =>
    intro n
    rcases le_or_lt n tr.length with hle | hlt
    · rw [List.take_append_of_le_length hle]
      exact ih n
    · rw [List.take_of_length_le (by simp; omega)]
      exact SemTrace.acq tr t htr hcap hone
  | rel tr t htr hhold ih =>
    intro n
    rcases le_or_lt n tr.length with hle | hlt
    · rw [List.take_append_of_le_length hle]
      exact ih n
    · rw [List.take_of_length_le (by simp; omega)]
      exact SemTrace.rel tr t htr hhold

/-! ## Helper lemmas: basename, update arguments, string append -/

theorem charIndexOf_of_not_mem (xs : List Char) (c : Char) (h : c ∉ xs) :
    charIndexOf xs c = none := by
  induction xs with
  | nil => rfl
  | cons x rest ih =>
    simp only [List.mem_cons, not_or] at h
    have hx : ¬x = c := fun he => h.1 he.symm
    simp [charIndexOf, hx, ih h.2]

theorem charIndexOf_append_self (xs ys : List Char) (c : Char) (h : c ∉ xs) :
    charIndexOf (xs ++ c :: ys) c = some xs.length := by
  induction xs with
  | nil => simp [charIndexOf]
  | cons x rest ih =>
    simp only [List.mem_cons, not_or] at h
    have hx : ¬x = c := fun he => h.1 he.symm
    simp [charIndexOf, hx, ih h.2]

/-- `basename` really is the last path segment: appending `"/" ++ b` with
`b` slash-free gives back `b`. -/
theorem basenameL_last_segment (a b : List Char) (h : '/' ∉ b) :
    basenameL (a ++ '/' :: b) = b := by
  have hrev : (a ++ '/' :: b).reverse = b.reverse ++ '/' :: a.reverse := by
    simp
  have hmem : '/' ∉ b.reverse := by simpa using h
  have hidx : charIndexOf ((a ++ '/' :: b).reverse) '/' = some b.reverse.length := by
    rw [hrev]
    exact charIndexOf_append_self _ _ _ hmem
  have key : List.drop ((a ++ '/' :: b).length - b.reverse.length) (a ++ '/' :: b) = b := by
    have h1 : (a ++ '/' :: b).length - b.reverse.length = (a ++ ['/']).length := by
      simp only [List.length_append, List.length_cons, List.length_reverse,
        List.length_nil]
      omega
    rw [h1]
    have h2 : a ++ '/' :: b = (a ++ ['/']) ++ b := by simp
    rw [h2]
    exact List.drop_left _ _
  unfold basenameL
  rw [hidx]
  exact key

/-- On a slash-free string `basename` is the identity. -/
theorem basenameL_no_slash (s : List Char) (h : '/' ∉ s) : basenameL s = s := by
  unfold basenameL
  rw [charIndexOf_of_not_mem _ _ (by simpa using h)]

theorem updateArgs_chain (ls : List Nat) :
    ∀ cur, List.Chain' (· ≤ ·) (cur :: updateArgs cur ls) := by
  induction ls with
  | nil => intro cur; simp [updateArgs]
  | cons l rest ih =>
    intro cur
    rw [updateArgs]
    exact List.chain'_cons.mpr ⟨Nat.le_add_right cur l, ih (cur + l)⟩

theorem downloadBody_updates_chain (fs : Option Int) (chunks : List (List Nat))
    (serr : Option StreamErr) (pool : Pool) :
    List.Chain' (· ≤ ·) ((downloadBody fs chunks serr pool).updates) := by
  unfold downloadBody
  dsimp only
  split
  · simpa using (updateArgs_chain (chunks.map (·.length)) 0).tail
  · simp

theorem string_toList_append (a b : String) :
    (a ++ b).toList = a.toList ++ b.toList := by
  cases a
  cases b
  rfl

/-! ## Claim theorems -/

/-- C1: the claim states that a download task reaching a terminal state
releases its render slot unconditionally, even when the body raises.
The code does not: `install_sub_bar` has no `try`/`finally` around its
`yield`, so a mid-stream network failure (here: a task that claimed slot
0 of an all-free 10-slot pool and then hit a stream error) ends in the
logged `Failed` state with the slot still occupied — the next allocation
returns slot 1, not slot 0. -/
theorem c1_slot_leaked_on_midstream_failure :
    (downloadFile "http://speedtest.tele2.net/100MB.zip"
        ⟨false, none, none, false, [[104, 105]], some .net⟩
        (List.replicate 10 none)).outcome = DlOutcome.loggedNetworkFailure ∧
    (downloadFile "http://speedtest.tele2.net/100MB.zip"
        ⟨false, none, none, false, [[104, 105]], some .net⟩
        (List.replicate 10 none)).pool = some () :: List.replicate 9 none ∧
    allocSlot (downloadFile "http://speedtest.tele2.net/100MB.zip"
        ⟨false, none, none, false, [[104, 105]], some .net⟩
        (List.replicate 10 none)).pool = some 1 := by
  decide

/-- C2 counterexample: with a listing whose zip links contain no
`100MB`-prefixed href, the run does not end gracefully — it crashes with
an uncaught `IndexError` from `list(filter(...))[0]`, contrary to the
claim that no unhandled exception escapes the orchestrator. -/
theorem c2_no_match_crash_counterexample :
    scrape ⟨false, 200, ["a.zip", "b.txt"]⟩ = ScrapeOutcome.crashedIndexError ∧
    scrape ⟨false, 200, ["a.zip", "b.txt"]⟩ ≠ ScrapeOutcome.loggedFetchFailure := by
  decide

/-- C2 (amended): when the fetched page yields no href that survives the
`.zip` filter and starts with `100MB`, no Download Task is created, but
the run ends by an uncaught `IndexError` escaping `scrape` (a crash),
not by a logged graceful return. -/
theorem c2_no_match_raises_index_error (env : ScrapeEnv)
    (h1 : env.fetchNetErr = false) (h2 : env.status < 400)
    (h3 : selectTarget env.hrefs = none) :
    scrape env = ScrapeOutcome.crashedIndexError ∧
    tasksStarted (scrape env) = 0 := by
  have : scrape env = ScrapeOutcome.crashedIndexError := by
    unfold scrape
    rw [h1, if_neg (by simp), if_neg (by omega), h3]
  exact ⟨this, by rw [this]; rfl⟩

/-- C2 witness: a concrete no-match run. -/
theorem c2_no_match_raises_index_error_witness :
    selectTarget ["a.zip", "b.txt"] = none ∧
    (scrape ⟨false, 200, ["a.zip", "b.txt"]⟩ = ScrapeOutcome.crashedIndexError ∧
      tasksStarted (scrape ⟨false, 200, ["a.zip", "b.txt"]⟩) = 0) :=
  ⟨by decide, c2_no_match_raises_index_error ⟨false, 200, ["a.zip", "b.txt"]⟩
    rfl (by decide) (by decide)⟩

/-- C5: slot allocation returns the lowest free index (that slot is free
and every lower slot is occupied), returns `none` exactly when no slot
is free, and in the spec's scenario — slots 0..2 allocated out of 10,
slot 1 freed — the next allocation returns slot 1. -/
theorem c5_alloc_lowest_free_index :
    (∀ (pool : Pool) (i : Nat), allocSlot pool = some i →
      pool.get? i = some none ∧ ∀ j, j < i → pool.get? j ≠ some none) ∧
    (∀ pool : Pool, allocSlot pool = none ↔ ∀ x ∈ pool, x ≠ none) ∧
    (freeSlot ([some (), some (), some ()] ++ List.replicate 7 none) 1 =
        .ok ([some (), none, some ()] ++ List.replicate 7 none) ∧
      allocSlot ([some (), none, some ()] ++ List.replicate 7 none) = some 1) :=
  ⟨allocSlot_spec, allocSlot_none_iff, rfl, by decide⟩

/-- C5 witness: the lowest-free-slot property at a concrete pool. -/
theorem c5_alloc_lowest_free_index_witness :
    allocSlot [some (), none] = some 1 ∧
    ([some (), none] : Pool).get? 1 = some none :=
  ⟨by decide, (c5_alloc_lowest_free_index.1 [some (), none] 1 (by decide)).1⟩

/-- C6 counterexample: freeing an already-free in-range slot does not
raise — `_free_slot` just re-assigns `None` — contradicting the claim
that `free` fails fatally whenever the index is already free. -/
theorem c6_free_already_free_silently_ok :
    freeSlot [none, some ()] 0 = .ok [none, some ()] := rfl

/-- C6 (amended): `free(index)` raises `IndexError` exactly when the index
is outside Python's list-assignment range `[-N, N)`; an already-free
in-range index silently succeeds and leaves the pool unchanged. -/
theorem c6_free_slot_amended :
    (∀ (pool : Pool) (i : Int),
      freeSlot pool i = .error "IndexError: list assignment index out of range" ↔
        (i < -(pool.length : Int) ∨ (pool.length : Int) ≤ i)) ∧
    (∀ (pool : Pool) (n : Nat), n < pool.length → pool.get? n = some none →
      freeSlot pool (n : Int) = .ok pool) := by
  constructor
  · intro pool i
    unfold freeSlot pyListSet
    split
    next h => simp; omega
    · split
      next h2 => simp; omega
      next h h2 => simp; omega
  · intro pool n h1 h2
    unfold freeSlot pyListSet
    rw [if_pos (by constructor <;> omega)]
    rw [Int.toNat_natCast]
    rw [set_get_none pool n h2]

/-- C6 witness: freeing an already-free slot 1 silently succeeds, and an
out-of-range index errors. -/
theorem c6_free_slot_amended_witness :
    (1 < ([some (), none, some ()] : Pool).length ∧
      ([some (), none, some ()] : Pool).get? 1 = some none ∧
      freeSlot [some (), none, some ()] (1 : Int) = .ok [some (), none, some ()]) ∧
    freeSlot [none] 5 = .error "IndexError: list assignment index out of range" :=
  ⟨⟨by decide, rfl,
      c6_free_slot_amended.2 [some (), none, some ()] 1 (by decide) rfl⟩,
    (c6_free_slot_amended.1 [none] 5).mpr (by decide)⟩

/-- C3: against the semaphore of `bound_concurrency(B)` (B = 10 in the
source), at every point of any producible trace at most `B` tasks are
past the acquire point; once `B + k` acquires have happened, at least
`k` releases happened before; per task, releases never outrun acquires
and each task acquires at most once; and the `async with sem` wrapper
emits exactly one acquire and one release whether the wrapped
`download_file` body returns or raises. -/
theorem c3_semaphore_bound_and_release_once :
    (∀ (B : Nat) (tr : List SemEvent) (n : Nat), SemTrace B tr →
      countAcq (tr.take n) ≤ countRel (tr.take n) + B) ∧
    (∀ (B : Nat) (tr : List SemEvent) (n k : Nat), SemTrace B tr →
      countAcq (tr.take n) = B + k → k ≤ countRel (tr.take n)) ∧
    (∀ (B : Nat) (tr : List SemEvent) (t : Nat), SemTrace B tr →
      countRelT tr t ≤ countAcqT tr t ∧ countAcqT tr t ≤ 1) ∧
    (∀ (t : Nat) (b : BodyOutcome), CONCURRENCY_BOUND = 10 ∧
      countAcqT (boundWrapper t b).1 t = 1 ∧
      countRelT (boundWrapper t b).1 t = 1) := by
  refine ⟨?_, ?_, ?_, ?_⟩
  · intro B tr n h
    exact semTrace_bound B _ (semTrace_take B tr h n)
  · intro B tr n k h he
    have := semTrace_bound B _ (semTrace_take B tr h n)
    omega
  · intro B tr t h
    exact semTrace_perTask B tr h t
  · intro t b
    refine ⟨rfl, ?_, ?_⟩ <;> cases b <;>
      simp [boundWrapper, countAcqT, countRelT, List.countP_cons, List.countP_nil]

/-- C3 witness: a concrete two-event trace under the bound 10. -/
theorem c3_semaphore_bound_and_release_once_witness :
    SemTrace 10 [SemEvent.acq 0, SemEvent.rel 0] ∧
    countAcq ([SemEvent.acq 0, SemEvent.rel 0].take 1) ≤
      countRel ([SemEvent.acq 0, SemEvent.rel 0].take 1) + 10 := by
  have h1 : SemTrace 10 ([] ++ [SemEvent.acq 0]) :=
    SemTrace.acq [] 0 SemTrace.nil (by decide) (by decide)
  have h2 : SemTrace 10 (([] ++ [SemEvent.acq 0]) ++ [SemEvent.rel 0]) :=
    SemTrace.rel _ 0 h1 (by decide)
  have h3 : SemTrace 10 [SemEvent.acq 0, SemEvent.rel 0] := by simpa using h2
  exact ⟨h3, c3_semaphore_bound_and_release_once.1 10 _ 1 h3⟩

/-- C4 counterexample: for a response whose `Content-Disposition` header is
present but carries no `filename` parameter, the resolved filename is
absent (`None`) — the code does not fall back to the URL's last path
segment, although that fallback (`100MB.zip`) exists. -/
theorem c4_filename_absent_counterexample :
    resolveFilename "http://speedtest.tele2.net/100MB.zip" (some "attachment") = none ∧
    basename "http://speedtest.tele2.net/100MB.zip" = "100MB.zip" := by
  decide

/-- C4 (amended): when the `Content-Disposition` header is present and
non-empty, the resolved name is exactly its parsed `filename` parameter
— which is absent (`None`, later crashing `pathlib.Path`) when the
header carries no such parameter; only when the header is absent or
empty does the resolution fall back to `os.path.basename(url)`, which
is the last path segment of the URL. -/
theorem c4_filename_resolution_amended :
    (∀ (url cd : String) (l : List Char), cd ≠ "" →
      lookupParam (parse_header cd.toList).2 filenameKey = some l →
      resolveFilename url (some cd) = some (String.mk l)) ∧
    (∀ url cd : String, cd ≠ "" →
      lookupParam (parse_header cd.toList).2 filenameKey = none →
      resolveFilename url (some cd) = none) ∧
    (∀ url : String, resolveFilename url none = some (basename url)) ∧
    (∀ url : String, resolveFilename url (some "") = some (basename url)) ∧
    (∀ a b : List Char, '/' ∉ b → basenameL (a ++ '/' :: b) = b) ∧
    (∀ s : List Char, '/' ∉ s → basenameL s = s) := by
  refine ⟨?_, ?_, fun url => rfl, fun url => rfl,
    basenameL_last_segment, basenameL_no_slash⟩
  · intro url cd l h1 h2
    simp [resolveFilename, h1]
    exact ⟨l, h2, rfl⟩
  · intro url cd h1 h2
    simp [resolveFilename, h1]
    exact h2

/-- C4 witness: a header with a `filename` parameter resolves to it. -/
theorem c4_filename_resolution_amended_witness :
    ("attachment; filename=x.zip" ≠ "") ∧
    lookupParam (parse_header "attachment; filename=x.zip".toList).2 filenameKey =
      some "x.zip".toList ∧
    resolveFilename "http://h/a.zip" (some "attachment; filename=x.zip") =
      some (String.mk "x.zip".toList) :=
  ⟨by decide, by decide,
    c4_filename_resolution_amended.1 "http://h/a.zip" "attachment; filename=x.zip"
      "x.zip".toList (by decide) (by decide)⟩

/-- C7: over any chunk stream, the sequence of values passed to
`chunks_bar.update` — each the previous value plus the current chunk's
length — is monotonically non-decreasing. -/
theorem c7_progress_updates_monotone (url : String) (env : DlEnv) (pool : Pool) :
    List.Chain' (· ≤ ·) ((downloadFile url env pool).updates) := by
  unfold downloadFile
  split
  · simp
  · split
    · simp
    · split
      · simp
      · split
        · simp
        · exact downloadBody_updates_chain ..

/-- C8 counterexample: a non-2xx status below 400 (here 304, with an empty
link list) is not treated as a fetch failure — `raise_for_status` only
raises for statuses ≥ 400 — so the run is neither logged as a failure
nor ended gracefully: it goes on to link selection and crashes. -/
theorem c8_non2xx_not_caught_counterexample :
    scrape ⟨false, 304, []⟩ = ScrapeOutcome.crashedIndexError ∧
    scrape ⟨false, 304, []⟩ ≠ ScrapeOutcome.loggedFetchFailure := by
  decide

/-- C8 (amended): a network/timeout error fetching the listing page, or a
status of at least 400 (the `raise_for_status` threshold, not every
non-2xx status), is logged, the run ends early, and no download task is
started; no unhandled exception escapes on these paths. -/
theorem c8_fetch_failure_amended (env : ScrapeEnv)
    (h : env.fetchNetErr = true ∨ 400 ≤ env.status) :
    scrape env = ScrapeOutcome.loggedFetchFailure ∧
    tasksStarted (scrape env) = 0 := by
  have : scrape env = ScrapeOutcome.loggedFetchFailure := by
    unfold scrape
    rcases h with h | h
    · rw [h]
      simp
    · rcases he : env.fetchNetErr with _ | _
      · rw [if_neg (by simp), if_pos h]
      · simp
  exact ⟨this, by rw [this]; rfl⟩

/-- C8 witness: a 503 response ends the run early with no task. -/
theorem c8_fetch_failure_amended_witness :
    (400 ≤ 503) ∧
    (scrape ⟨false, 503, ["100MB.zip"]⟩ = ScrapeOutcome.loggedFetchFailure ∧
      tasksStarted (scrape ⟨false, 503, ["100MB.zip"]⟩) = 0) :=
  ⟨by decide, c8_fetch_failure_amended ⟨false, 503, ["100MB.zip"]⟩
    (Or.inr (by decide))⟩

/-- C9 counterexample: a `Content-Length` of `"0"` is not indistinguishable
from an absent header: the progress bar is constructed with
`maxval = 0`, while an absent header yields `maxval = None`, so the two
runs produce different observables. -/
theorem c9_zero_length_distinguishable_counterexample :
    (downloadFile "http://h/100MB.zip" ⟨false, none, some "0", false, [[104]], none⟩
        (List.replicate 10 none)).barMaxval = some (some 0) ∧
    (downloadFile "http://h/100MB.zip" ⟨false, none, none, false, [[104]], none⟩
        (List.replicate 10 none)).barMaxval = some none ∧
    downloadFile "http://h/100MB.zip" ⟨false, none, some "0", false, [[104]], none⟩
        (List.replicate 10 none) ≠
      downloadFile "http://h/100MB.zip" ⟨false, none, none, false, [[104]], none⟩
        (List.replicate 10 none) := by
  decide

/-- C9 (amended): a `Content-Length` of `"0"` parses to the falsy size 0,
so — exactly as with an absent header — `update` is never called and
every received chunk is still written, with the same outcome and pool;
the runs differ only in the `maxval` handed to the bar constructor
(0 versus `None`), so the rendering mode is not necessarily the
size-unknown one. -/
theorem c9_zero_length_amended (url : String) (dispo : Option String)
    (g o : Bool) (chunks : List (List Nat)) (serr : Option StreamErr)
    (pool : Pool) :
    (downloadFile url ⟨g, dispo, some "0", o, chunks, serr⟩ pool).outcome =
      (downloadFile url ⟨g, dispo, none, o, chunks, serr⟩ pool).outcome ∧
    (downloadFile url ⟨g, dispo, some "0", o, chunks, serr⟩ pool).written =
      (downloadFile url ⟨g, dispo, none, o, chunks, serr⟩ pool).written ∧
    (downloadFile url ⟨g, dispo, some "0", o, chunks, serr⟩ pool).updates =
      (downloadFile url ⟨g, dispo, none, o, chunks, serr⟩ pool).updates ∧
    (downloadFile url ⟨g, dispo, some "0", o, chunks, serr⟩ pool).pool =
      (downloadFile url ⟨g, dispo, none, o, chunks, serr⟩ pool).pool := by
  have hcl : parseContentLength (some "0") = Except.ok (some 0) := rfl
  have hcl2 : parseContentLength none = Except.ok (none : Option Int) := rfl
  unfold downloadFile
  rw [hcl, hcl2]
  cases g
  case false =>
    rcases hf : resolveFilename url dispo with _ | f
    · simp [hf]
    · cases o
      case false => simp [hf, downloadBody, pyTruthyInt]
      case true => simp [hf]
  case true => simp

/-- C10: the URL handed to the download task is the character-for-character
concatenation of the hard-coded listing URL and the selected href, with
no resolution or normalization. -/
theorem c10_download_url_plain_concat (env : ScrapeEnv) (href : String)
    (h1 : env.fetchNetErr = false) (h2 : env.status < 400)
    (h3 : selectTarget env.hrefs = some href) :
    scrape env = ScrapeOutcome.ran (LISTING_URL ++ href) ∧
    (LISTING_URL ++ href).toList = LISTING_URL.toList ++ href.toList := by
  constructor
  · unfold scrape
    rw [h1, if_neg (by simp), if_neg (by omega), h3]
  · exact string_toList_append LISTING_URL href

/-- C10 witness: the spec's fixture selects `100MB-1.zip` and the task URL
is the plain concatenation. -/
theorem c10_download_url_plain_concat_witness :
    selectTarget ["a.zip", "100MB-1.zip", "200MB.zip"] = some "100MB-1.zip" ∧
    (scrape ⟨false, 200, ["a.zip", "100MB-1.zip", "200MB.zip"]⟩ =
        ScrapeOutcome.ran (LISTING_URL ++ "100MB-1.zip") ∧
      (LISTING_URL ++ "100MB-1.zip").toList =
        LISTING_URL.toList ++ "100MB-1.zip".toList) :=
  ⟨by decide, c10_download_url_plain_concat
    ⟨false, 200, ["a.zip", "100MB-1.zip", "200MB.zip"]⟩ "100MB-1.zip"
    rfl (by decide) (by decide)⟩
